import Mathlib

/-!
Verification of the Mono banking webhook core (`mono_banking_mcp`):
the signature verifier, the webhook dispatcher with its four event
handlers (`webhook_server.py`), and the SQLite-backed store
(`database.py`).

Python dynamic values flowing through the pipeline are modelled by
`Json` (Python `None` and JSON `null` are identified, as `json.loads`
maps `null` to `None`).  The three tables are lists of typed rows kept
in insertion (rowid) order.  Store operations that the source wraps in
`try/except` never raise here: internal failures are reported as a
`false` result with the state unchanged, exactly as the source reports
them to its caller.  Column NOT NULL constraints of the SQLAlchemy
schema are enforced at commit time by `dataToRow` / `txnFromData`:
a required column bound to `NULL` (or to an unbindable value) makes
the whole guarded operation fail.
-/

/-- Python/JSON dynamic values as they appear in webhook payloads. -/
inductive Json where
  | null
  | bool (b : Bool)
  | num (n : Int)
  | str (s : String)
  | arr (xs : List Json)
  | obj (fields : List (String × Json))
deriving Repr

/-- Model of `d.get(k)` on a Python value: `AttributeError` (modelled as
`Except.error`) when `d` is not a dict; otherwise the first binding of
`k`, or `None` when absent. -/
def pyGet (j : Json) (k : String) : Except Unit Json :=
  match j with
  | .obj fs => .ok ((fs.lookup k).getD .null)
  | _ => .error ()

/-- Model of `d.get(k, default)`: like `pyGet` but an absent key yields
the default (a present `null` binding still yields `null`). -/
def pyGetD (j : Json) (k : String) (d : Json) : Except Unit Json :=
  match j with
  | .obj fs => .ok ((fs.lookup k).getD d)
  | _ => .error ()

/-- Python truthiness combined with `isinstance(x, str)`: the guard
`if account_id and isinstance(account_id, str)` of the handlers. -/
def isNonemptyStr : Json → Bool
  | .str s => decide (s ≠ "")
  | _ => false

/-- A committed row of the `accounts` table.  Non-`Option` fields are
the NOT NULL columns of the schema; timestamps are not modelled. -/
structure AccountRow where
  id : String
  customer_id : String
  account_number : String
  account_name : String
  bank_name : String
  bank_code : String
  account_type : String
  currency : String
  bvn : Option String
  status : String
deriving Repr, DecidableEq

/-- A committed row of the `transactions` table. -/
structure TxnRow where
  id : String
  account_id : String
  amount : Int
  type : String
  description : Option String
  reference : Option String
  date : String
  balance : Int
  category : Option String
deriving Repr, DecidableEq

/-- A committed row of the `webhook_events` table (`data` holds the
payload serialized by `json.dumps`). -/
structure EventRow where
  event_type : String
  account_id : Option String
  data : Json
  processed : Bool
deriving Repr

/-- The whole store: the three tables, rows in insertion (rowid) order. -/
structure DB where
  accounts : List AccountRow
  txns : List TxnRow
  events : List EventRow
deriving Repr

/-- The empty store, as created by `Base.metadata.create_all`. -/
def dbEmpty : DB := { accounts := [], txns := [], events := [] }

/-- Dict lookup giving `NULL` for an absent key (binding a column from
a Python dict). -/
def jlookup (d : List (String × Json)) (k : String) : Json :=
  (d.lookup k).getD Json.null

/-- Binding a value to a NOT NULL text column: `NULL` or an unbindable
value fails the commit; numbers and booleans are coerced to text by
SQLite's TEXT affinity. -/
def reqText : Json → Option String
  | .str s => some s
  | .num n => some (toString n)
  | .bool b => some (if b then "1" else "0")
  | _ => none

/-- Binding a value to a nullable text column. -/
def optText : Json → Option (Option String)
  | .null => some none
  | .str s => some (some s)
  | .num n => some (some (toString n))
  | .bool b => some (some (if b then "1" else "0"))
  | _ => none

/-- Binding a value to a NOT NULL integer column. -/
def reqInt : Json → Option Int
  | .num n => some n
  | .bool b => some (if b then 1 else 0)
  | _ => none

/-- Commit of an account row built from a keyword dict: every NOT NULL
column must receive a non-`NULL` bindable value, else the commit fails. -/
def dataToRow (d : List (String × Json)) : Option AccountRow :=
  match reqText (jlookup d "id"), reqText (jlookup d "customer_id"),
        reqText (jlookup d "account_number"),
        reqText (jlookup d "account_name"),
        reqText (jlookup d "bank_name"), reqText (jlookup d "bank_code"),
        reqText (jlookup d "account_type"), reqText (jlookup d "currency"),
        optText (jlookup d "bvn"), reqText (jlookup d "status") with
  | some id, some customer_id, some account_number, some account_name,
    some bank_name, some bank_code, some account_type, some currency,
    some bvn, some status =>
    some { id, customer_id, account_number, account_name, bank_name,
           bank_code, account_type, currency, bvn, status }
  | _, _, _, _, _, _, _, _, _, _ => none

/-- Column defaults applied by `Account(**data)` when a key is absent
(`status` defaults to `"active"`). -/
def withInsertDefaults (d : List (String × Json)) : List (String × Json) :=
  match d.lookup "status" with
  | none => d ++ [("status", Json.str "active")]
  | some _ => d

/-- The dict produced by `MonoBankingDB.get_account` for a row
(timestamp keys omitted; no claim depends on them). -/
def rowToData (r : AccountRow) : List (String × Json) :=
  [("id", Json.str r.id), ("customer_id", Json.str r.customer_id),
   ("account_number", Json.str r.account_number),
   ("account_name", Json.str r.account_name),
   ("bank_name", Json.str r.bank_name), ("bank_code", Json.str r.bank_code),
   ("account_type", Json.str r.account_type),
   ("currency", Json.str r.currency),
   ("bvn", match r.bvn with | some s => Json.str s | none => Json.null),
   ("status", match r.status with | s => Json.str s)]

/-- Primary-key lookup `db.get(Account, account_id)`: SQLite's
comparison affinity applies TEXT affinity to a numeric or boolean key,
so it matches the row whose text id is the key's text form (`reqText`,
the same conversion the transaction store uses); a `NULL` or
non-scalar key matches nothing (any raise is caught by the guarded
callers, whose observable outcome coincides with the no-match path). -/
def findAccount (st : DB) (aid : Json) : Option AccountRow :=
  match reqText aid with
  | some s => st.accounts.find? (fun r => r.id = s)
  | none => none

/-- `MonoBankingDB.store_account`: insert when the id is absent, else
merge the dict onto the existing row; any commit failure is caught and
reported as `false` with the store unchanged. -/
def store_account (d : List (String × Json)) (st : DB) : DB × Bool :=
  match findAccount st (jlookup d "id") with
  | some row =>
    match dataToRow (d ++ rowToData row) with
    | some row' =>
      ({ st with accounts :=
          st.accounts.map (fun r => if r.id = row.id then row' else r) }, true)
    | none => (st, false)
  | none =>
    match dataToRow (withInsertDefaults d) with
    | some row' => ({ st with accounts := st.accounts ++ [row'] }, true)
    | none => (st, false)

/-- `MonoBankingDB.get_account` (errors are caught and yield `None`). -/
def get_account (st : DB) (aid : Json) : Option AccountRow :=
  findAccount st aid

/-- `MonoBankingDB.store_webhook_event`: append one row with
`processed` left at its `False` default; an unbindable `account_id`
makes the guarded commit fail. -/
def store_webhook_event (etype : String) (aid : Json) (payload : Json)
    (st : DB) : DB × Bool :=
  match optText aid with
  | some a =>
    ({ st with events := st.events ++
        [{ event_type := etype, account_id := a, data := payload,
           processed := false }] }, true)
  | none => (st, false)

/-- Commit of a transaction row from one dict of the batch. -/
def txnFromData (aid : String) (t : List (String × Json)) : Option TxnRow :=
  match reqText (jlookup t "_id"), reqInt (jlookup t "amount"),
        reqText (jlookup t "type"), optText (jlookup t "narration"),
        optText (jlookup t "reference"), reqText (jlookup t "date"),
        reqInt (jlookup t "balance"), optText (jlookup t "category") with
  | some id, some amount, some ty, some description, some reference,
    some date, some balance, some category =>
    some { id, account_id := aid, amount, type := ty, description,
           reference, date, balance, category }
  | _, _, _, _, _, _, _, _ => none

/-- Loop body of `store_transactions`: per-dict upsert keyed on `_id`;
a failing row fails the whole batch (single commit, rollback on error). -/
def storeTxnsGo (aid : String) :
    List (List (String × Json)) → List TxnRow → Option (List TxnRow)
  | [], rows => some rows
  | t :: rest, rows =>
    match reqText (jlookup t "_id") with
    | some s =>
      match txnFromData aid t with
      | some row' =>
        if rows.any (fun r => r.id = s) then
          storeTxnsGo aid rest
            (rows.map (fun r => if r.id = s then row' else r))
        else
          storeTxnsGo aid rest (rows ++ [row'])
      | none => none
    | none => none

/-- `MonoBankingDB.store_transactions`: the batch commits atomically or
is rolled back and reported as `false`. -/
def store_transactions (aid : String) (txns : List (List (String × Json)))
    (st : DB) : DB × Bool :=
  match storeTxnsGo aid txns st.txns with
  | some rows => ({ st with txns := rows }, true)
  | none => (st, false)

/-- Lexicographic strict order on character lists by code point:
SQLite's BINARY collation on the ASCII date strings of this store. -/
def charListLt : List Char → List Char → Bool
  | [], [] => false
  | [], _ :: _ => true
  | _ :: _, [] => false
  | a :: as, b :: bs =>
    if a.toNat < b.toNat then true
    else if b.toNat < a.toNat then false
    else charListLt as bs

/-- Strict BINARY-collation comparison of two date strings. -/
def dateLt (a b : String) : Bool := charListLt a.data b.data

/-- Insertion step of `ORDER BY date DESC` over a rowid scan: a row is
placed after every already-placed row whose date is not smaller, so
equal dates keep their storage order. -/
def insertDesc (r : TxnRow) : List TxnRow → List TxnRow
  | [] => [r]
  | x :: xs =>
    if dateLt x.date r.date then r :: x :: xs else x :: insertDesc r xs

/-- Stable descending sort by the `date` column. -/
def sortByDateDesc (l : List TxnRow) : List TxnRow :=
  l.foldl (fun acc r => insertDesc r acc) []

/-- `MonoBankingDB.get_recent_transactions`: filter by account, order
by date descending, take `limit`. -/
def get_recent_transactions (aid : String) (limit : Nat) (st : DB) :
    List TxnRow :=
  (sortByDateDesc (st.txns.filter (fun r => r.account_id = aid))).take limit

/-- `MonoBankingDB.remove_account`: delete the account row (if any) and
every transaction of the account; absence is not an error.  Under
SQLite comparison affinity a numeric or boolean key deletes the rows
whose text id is the key's text form; a `NULL` or non-scalar key fails
inside the guarded region and is reported as `false` with the store
unchanged. -/
def remove_account (aid : Json) (st : DB) : DB × Bool :=
  match reqText aid with
  | some s =>
    ({ st with accounts := st.accounts.filter (fun r => ¬ r.id = s),
               txns := st.txns.filter (fun r => ¬ r.account_id = s) }, true)
  | none => (st, false)

/-! ## Webhook handlers (`webhook_server.py`)

Handlers are `Except Unit DB`: an uncaught Python exception inside a
handler (an attribute access on a non-dict) is `Except.error` and is
turned into a 500 by the endpoint.  In every handler such an exception
can only occur before the first store mutation, so the state at the
error is the entry state. -/

/-- `handle_account_connected`. -/
def handle_account_connected (data : Json) (st : DB) : Except Unit DB :=
  match pyGet data "id" with
  | .error e => .error e
  | .ok account_id =>
    match pyGet data "customer" with
    | .error e => .error e
    | .ok customer_id =>
      let account_data := [("id", account_id), ("customer_id", customer_id),
                           ("status", Json.str "connected")]
      let st1 := (store_account account_data st).1
      if isNonemptyStr account_id then
        .ok (store_webhook_event "account_connected" account_id data st1).1
      else
        .ok st1

/-- `handle_account_updated`. -/
def handle_account_updated (data : Json) (st : DB) : Except Unit DB :=
  match pyGetD data "account" (Json.obj []) with
  | .error e => .error e
  | .ok account_info =>
    match pyGet account_info "id" with
    | .error e => .error e
    | .ok account_id =>
      match pyGetD data "meta" (Json.obj []) with
      | .error e => .error e
      | .ok meta =>
        match pyGet meta "data_status" with
        | .error e => .error e
        | .ok data_status =>
          match get_account st account_id with
          | some row =>
            match pyGetD account_info "institution" (Json.obj []) with
            | .error e => .error e
            | .ok institution =>
              match pyGet institution "name" with
              | .error e => .error e
              | .ok bank_name =>
                match pyGet institution "bankCode" with
                | .error e => .error e
                | .ok bank_code =>
                  let merged := [("status", data_status),
                                 ("bank_name", bank_name),
                                 ("bank_code", bank_code)] ++ rowToData row
                  let st1 := (store_account merged st).1
                  .ok (store_webhook_event "account_updated" account_id
                        data st1).1
          | none =>
            .ok (store_webhook_event "account_updated" account_id data st).1

/-- `handle_account_unlinked`. -/
def handle_account_unlinked (data : Json) (st : DB) : Except Unit DB :=
  match pyGetD data "account" (Json.obj []) with
  | .error e => .error e
  | .ok account_info =>
    match pyGet account_info "id" with
    | .error e => .error e
    | .ok account_id =>
      let st1 := (remove_account account_id st).1
      if isNonemptyStr account_id then
        .ok (store_webhook_event "account_unlinked" account_id data st1).1
      else
        .ok st1

/-- `handle_job_update` (the `finished` branch only prints). -/
def handle_job_update (data : Json) (st : DB) : Except Unit DB :=
  match pyGet data "account" with
  | .error e => .error e
  | .ok account_id =>
    match pyGet data "status" with
    | .error e => .error e
    | .ok _job_status =>
      if isNonemptyStr account_id then
        .ok (store_webhook_event "job_update" account_id data st).1
      else
        .ok st

/-- Outcome of the guarded dispatch: a handler that ran to completion
yields its state and 200; an uncaught exception yields 500 with the
state at the raise (always the entry state, see the section comment). -/
def toResponse (st : DB) (r : Except Unit DB) : DB × Nat :=
  match r with
  | .ok st' => (st', 200)
  | .error _ => (st, 500)

/-- The dispatch block of `handle_webhook` after signature verification
and JSON decoding (lines 67-91): exact string match on the declared
type routes to a handler, anything else is only printed; the endpoint
answers 200, or 500 when a handler raises. -/
def dispatchEvent (event_data : Json) (st : DB) : DB × Nat :=
  match pyGet event_data "event" with
  | .error _ => (st, 500)
  | .ok event_type =>
    match pyGetD event_data "data" (Json.obj []) with
    | .error _ => (st, 500)
    | .ok data =>
      match event_type with
      | .str s =>
        if s = "mono.events.account_connected" then
          toResponse st (handle_account_connected data st)
        else if s = "mono.events.account_updated" then
          toResponse st (handle_account_updated data st)
        else if s = "mono.events.account_unlinked" then
          toResponse st (handle_account_unlinked data st)
        else if s = "mono.accounts.jobs.update" then
          toResponse st (handle_job_update data st)
        else (st, 200)
      | _ => (st, 200)

/-- `GET /health` of the webhook server: status code and JSON body. -/
def health_check : Nat × Json :=
  (200, Json.obj [("status", Json.str "healthy"),
                  ("service", Json.str "mono-banking-webhooks")])

/-! ## Signature verifier (`verify_webhook_signature`)

Bytes and ASCII strings are `List Nat`.  `hashlib`/`hmac` are embedded
as the concrete SHA-256 / HMAC algorithms they implement. -/

/-- Truncation to a 32-bit word. -/
def w32 (x : Nat) : Nat := x % 4294967296

/-- 32-bit right rotation. -/
def rotr (n x : Nat) : Nat := w32 ((x >>> n) ||| (x <<< (32 - n)))

/-- SHA-256 message-schedule sigma-0. -/
def sSigma0 (x : Nat) : Nat := (rotr 7 x) ^^^ (rotr 18 x) ^^^ (x >>> 3)

/-- SHA-256 message-schedule sigma-1. -/
def sSigma1 (x : Nat) : Nat := (rotr 17 x) ^^^ (rotr 19 x) ^^^ (x >>> 10)

/-- SHA-256 round function Sigma-0. -/
def bSigma0 (x : Nat) : Nat := (rotr 2 x) ^^^ (rotr 13 x) ^^^ (rotr 22 x)

/-- SHA-256 round function Sigma-1. -/
def bSigma1 (x : Nat) : Nat := (rotr 6 x) ^^^ (rotr 11 x) ^^^ (rotr 25 x)

/-- The eight 32-bit words of a SHA-256 state. -/
structure Hash8 where
  a : Nat
  b : Nat
  c : Nat
  d : Nat
  e : Nat
  f : Nat
  g : Nat
  h : Nat
deriving Repr

/-- SHA-256 initial state. -/
def shaInit : Hash8 :=
  ⟨1779033703, 3144134277, 1013904242, 2773480762,
   1359893119, 2600822924, 528734635, 1541459225⟩

/-- SHA-256 round constants. -/
def shaK : List Nat :=
  [1116352408, 1899447441, 3049323471, 3921009573,
   961987163, 1508970993, 2453635748, 2870763221,
   3624381080, 310598401, 607225278, 1426881987,
   1925078388, 2162078206, 2614888103, 3248222580,
   3835390401, 4022224774, 264347078, 604807628,
   770255983, 1249150122, 1555081692, 1996064986,
   2554220882, 2821834349, 2952996808, 3210313671,
   3336571891, 3584528711, 113926993, 338241895,
   666307205, 773529912, 1294757372, 1396182291,
   1695183700, 1986661051, 2177026350, 2456956037,
   2730485921, 2820302411, 3259730800, 3345764771,
   3516065817, 3600352804, 4094571909, 275423344,
   430227734, 506948616, 659060556, 883997877,
   958139571, 1322822218, 1537002063, 1747873779,
   1955562222, 2024104815, 2227730452, 2361852424,
   2428436474, 2756734187, 3204031479, 3329325298]

/-- Pack big-endian byte quadruples into 32-bit words. -/
def toWords : List Nat → List Nat
  | a :: b :: c :: d :: rest => (((a * 256 + b) * 256 + c) * 256 + d) :: toWords rest
  | _ => []

/-- Extend the schedule by one word. -/
def stepW (w : List Nat) : List Nat :=
  let n := w.length
  w ++ [w32 (sSigma1 (w.getD (n - 2) 0) + w.getD (n - 7) 0 +
             sSigma0 (w.getD (n - 15) 0) + w.getD (n - 16) 0)]

/-- The 64-word message schedule of one chunk. -/
def schedule (w16 : List Nat) : List Nat := Nat.repeat stepW 48 w16

/-- One SHA-256 round. -/
def compressStep (st : Hash8) (kw : Nat × Nat) : Hash8 :=
  let ch := (st.e &&& st.f) ^^^ ((st.e ^^^ 0xffffffff) &&& st.g)
  let maj := (st.a &&& st.b) ^^^ (st.a &&& st.c) ^^^ (st.b &&& st.c)
  let t1 := w32 (st.h + bSigma1 st.e + ch + kw.1 + kw.2)
  let t2 := w32 (bSigma0 st.a + maj)
  ⟨w32 (t1 + t2), st.a, st.b, st.c, w32 (st.d + t1), st.e, st.f, st.g⟩

/-- Compress one 64-byte chunk into the running state. -/
def compressChunk (st : Hash8) (chunk : List Nat) : Hash8 :=
  let w := schedule (toWords chunk)
  let t := (shaK.zip w).foldl compressStep st
  ⟨w32 (st.a + t.a), w32 (st.b + t.b), w32 (st.c + t.c), w32 (st.d + t.d),
   w32 (st.e + t.e), w32 (st.f + t.f), w32 (st.g + t.g), w32 (st.h + t.h)⟩

/-- Big-endian bytes of an 8-byte length field. -/
def lenBytes (n : Nat) : List Nat :=
  [(n >>> 56) % 256, (n >>> 48) % 256, (n >>> 40) % 256, (n >>> 32) % 256,
   (n >>> 24) % 256, (n >>> 16) % 256, (n >>> 8) % 256, n % 256]

/-- SHA-256 padding to a multiple of 64 bytes. -/
def padMsg (msg : List Nat) : List Nat :=
  let zeros := (119 - (msg.length % 64)) % 64
  msg ++ [128] ++ List.replicate zeros 0 ++ lenBytes (8 * msg.length)

/-- Split into 64-byte chunks, driven by a chunk count. -/
def chunks64 : Nat → List Nat → List (List Nat)
  | 0, _ => []
  | n + 1, l => l.take 64 :: chunks64 n (l.drop 64)

/-- Big-endian bytes of a 32-bit word. -/
def wordBytes (x : Nat) : List Nat :=
  [(x >>> 24) % 256, (x >>> 16) % 256, (x >>> 8) % 256, x % 256]

/-- The 32-byte digest of a final state. -/
def hashBytes (st : Hash8) : List Nat :=
  wordBytes st.a ++ wordBytes st.b ++ wordBytes st.c ++ wordBytes st.d ++
  wordBytes st.e ++ wordBytes st.f ++ wordBytes st.g ++ wordBytes st.h

/-- SHA-256 of a byte sequence (`hashlib.sha256`). -/
def sha256 (msg : List Nat) : List Nat :=
  let p := padMsg msg
  hashBytes ((chunks64 (p.length / 64) p).foldl compressChunk shaInit)

/-- HMAC-SHA256 (`hmac.new(key, msg, hashlib.sha256)`), block size 64. -/
def hmacSha256 (key msg : List Nat) : List Nat :=
  let k0 := if 64 < key.length then sha256 key else key
  let k := k0 ++ List.replicate (64 - k0.length) 0
  sha256 ((k.map (fun b => b ^^^ 92)) ++
          sha256 ((k.map (fun b => b ^^^ 54)) ++ msg))

/-- ASCII code of a lowercase hexadecimal digit. -/
def hexDigitCode (n : Nat) : Nat := if n < 10 then 48 + n else 87 + n

/-- Lowercase hexadecimal rendering (`.hexdigest()`), as ASCII codes. -/
def hexCodes (bytes : List Nat) : List Nat :=
  bytes.foldr (fun b acc => hexDigitCode (b / 16) :: hexDigitCode (b % 16) :: acc) []

/-- `hmac.compare_digest` on `str` arguments: equality on same-length
ASCII strings (computed in constant time in the source; timing is not
modelled), but a `TypeError` — modelled as `Except.error` — when either
string contains a non-ASCII character (code point 128 or above). -/
def compare_digest (a b : List Nat) : Except Unit Bool :=
  if a.any (fun c => 128 ≤ c) || b.any (fun c => 128 ≤ c) then .error ()
  else .ok (a == b)

/-- `verify_webhook_signature`: the module-level `WEBHOOK_SECRET`
(`None` when unset) is passed explicitly; `not WEBHOOK_SECRET` is also
true for an empty secret.  A `TypeError` raised by `compare_digest`
propagates to the caller (where `handle_webhook` turns it into a 500);
all other paths return a boolean without raising. -/
def verify_webhook_signature (secret : Option (List Nat))
    (payload signature : List Nat) : Except Unit Bool :=
  match secret with
  | none => .ok false
  | some sec =>
    if sec.isEmpty then .ok false
    else if signature.isEmpty then .ok false
    else
      let expected := hexCodes (hmacSha256 sec payload)
      if signature.length ≠ expected.length then .ok false
      else compare_digest signature expected

/-! ## Length facts about the digest -/

/-- Hex rendering doubles the length. -/
theorem hexCodes_length (l : List Nat) : (hexCodes l).length = 2 * l.length := by
  induction l with
  | nil => rfl
  | cons b t ih =>
    show (hexDigitCode (b / 16) :: hexDigitCode (b % 16) :: hexCodes t).length = _
    simp [ih]; omega

/-- A SHA-256 digest is 32 bytes for every input. -/
theorem sha256_length (m : List Nat) : (sha256 m).length = 32 := by
  simp [sha256, hashBytes, wordBytes]

/-- An HMAC-SHA256 digest is 32 bytes for every key and message. -/
theorem hmacSha256_length (k m : List Nat) : (hmacSha256 k m).length = 32 := by
  simp only [hmacSha256]
  exact sha256_length _

/-- The rendered digest is 64 characters. -/
theorem hexDigest_length (k m : List Nat) :
    (hexCodes (hmacSha256 k m)).length = 64 := by
  rw [hexCodes_length, hmacSha256_length]

/-- Every byte of a big-endian word rendering is below 256. -/
theorem wordBytes_lt (x : Nat) : ∀ b ∈ wordBytes x, b < 256 := by
  intro b hb
  simp [wordBytes] at hb
  rcases hb with rfl | rfl | rfl | rfl <;> exact Nat.mod_lt _ (by norm_num)

/-- Every byte of a SHA-256 digest is below 256. -/
theorem sha256_bytes_lt (m : List Nat) : ∀ b ∈ sha256 m, b < 256 := by
  intro b hb
  simp only [sha256, hashBytes, List.mem_append] at hb
  rcases hb with (((((((h | h) | h) | h) | h) | h) | h) | h) <;>
    exact wordBytes_lt _ b h

/-- Every byte of an HMAC-SHA256 digest is below 256. -/
theorem hmacSha256_bytes_lt (k m : List Nat) :
    ∀ b ∈ hmacSha256 k m, b < 256 := by
  simp only [hmacSha256]
  exact sha256_bytes_lt _

/-- The hex rendering of a byte list is pure ASCII. -/
theorem hexCodes_ascii (l : List Nat) (h : ∀ b ∈ l, b < 256) :
    (hexCodes l).any (fun c => 128 ≤ c) = false := by
  induction l with
  | nil => rfl
  | cons b t ih =>
    have hb := h b (List.mem_cons_self b t)
    have h1 : ¬ (128 ≤ hexDigitCode (b / 16)) := by
      have hq : b / 16 < 16 := by omega
      unfold hexDigitCode
      split <;> omega
    have h2 : ¬ (128 ≤ hexDigitCode (b % 16)) := by
      have hq : b % 16 < 16 := by omega
      unfold hexDigitCode
      split <;> omega
    show (hexDigitCode (b / 16) :: hexDigitCode (b % 16) :: hexCodes t).any
      (fun c => 128 ≤ c) = false
    simp [h1, h2, ih (fun z hz => h z (List.mem_cons_of_mem b hz))]

/-- The rendered digest itself is pure ASCII. -/
theorem hexDigest_ascii (k m : List Nat) :
    (hexCodes (hmacSha256 k m)).any (fun c => 128 ≤ c) = false :=
  hexCodes_ascii _ (hmacSha256_bytes_lt k m)

/-- C2 counterexample: a supplied signature of 64 non-ASCII characters
(possible, since header values are latin-1 decoded) has the computed
digest's length, passes the length check, and then `compare_digest`
raises `TypeError` — the verifier raises (surfacing as a 500) instead
of returning false for this differing signature. -/
theorem c2_nonascii_signature_raises :
    verify_webhook_signature (some [115, 101, 99]) [98, 111, 100, 121]
      (List.replicate 64 255) = Except.error () := by
  simp only [verify_webhook_signature]
  rw [if_neg (by decide), if_neg (by decide)]
  rw [if_neg (by simp [hexDigest_length])]
  unfold compare_digest
  rw [if_pos (by rw [show (List.replicate 64 (255 : Nat)).any
    (fun c => 128 ≤ c) = true from by decide]; simp)]

/-- C2 (amended): for every body and non-empty secret, `verify`
accepts exactly the lowercase-hex HMAC-SHA256 digest of the body under
the secret; any differing ASCII signature is rejected with `false`; a
same-length signature containing a non-ASCII character makes
`compare_digest` raise `TypeError` instead (surfacing as a 500); and
it fails closed (false, no exception) for an unset or empty secret, an
empty signature, or a length mismatch with the computed digest. -/
theorem c2_signature_verifier_contract :
    (∀ sec payload : List Nat, sec ≠ [] →
      verify_webhook_signature (some sec) payload
        (hexCodes (hmacSha256 sec payload)) = Except.ok true)
  ∧ (∀ sec payload sig : List Nat,
      sig ≠ hexCodes (hmacSha256 sec payload) →
      sig.any (fun c => 128 ≤ c) = false →
      verify_webhook_signature (some sec) payload sig = Except.ok false)
  ∧ (∀ sec payload sig : List Nat, sec ≠ [] →
      sig.length = (hexCodes (hmacSha256 sec payload)).length →
      sig.any (fun c => 128 ≤ c) = true →
      verify_webhook_signature (some sec) payload sig = Except.error ())
  ∧ (∀ payload sig : List Nat,
      verify_webhook_signature none payload sig = Except.ok false)
  ∧ (∀ payload sig : List Nat,
      verify_webhook_signature (some []) payload sig = Except.ok false)
  ∧ (∀ sec payload : List Nat,
      verify_webhook_signature (some sec) payload [] = Except.ok false)
  ∧ (∀ sec payload sig : List Nat,
      sig.length ≠ (hexCodes (hmacSha256 sec payload)).length →
      verify_webhook_signature (some sec) payload sig = Except.ok false) := by
  have hne : ∀ k m : List Nat, (hexCodes (hmacSha256 k m)).isEmpty = false := by
    intro k m
    cases h : hexCodes (hmacSha256 k m) with
    | nil => have := hexDigest_length k m; rw [h] at this; simp at this
    | cons a t => rfl
  refine ⟨?_, ?_, ?_, ?_, ?_, ?_, ?_⟩
  · intro sec payload hsec
    have h1 : sec.isEmpty = false := by
      cases sec with
      | nil => exact absurd rfl hsec
      | cons a t => rfl
    have h2 := hexDigest_ascii sec payload
    simp [verify_webhook_signature, h1, hne, compare_digest, h2]
  · intro sec payload sig hsig hascii
    simp only [verify_webhook_signature]
    by_cases h1 : sec.isEmpty
    · simp [h1]
    · simp only [h1, if_false, Bool.false_eq_true]
      by_cases h2 : sig.isEmpty
      · simp [h2]
      · simp only [h2, if_false, Bool.false_eq_true]
        by_cases h3 : sig.length ≠ (hexCodes (hmacSha256 sec payload)).length
        · simp [h3]
        · simp only [h3, if_false]
          have h4 := hexDigest_ascii sec payload
          simp only [compare_digest, hascii, h4, Bool.or_self,
            Bool.false_eq_true, if_false]
          simpa using hsig
  · intro sec payload sig hsec hlen hascii
    have h1 : sec.isEmpty = false := by
      cases sec with
      | nil => exact absurd rfl hsec
      | cons a t => rfl
    have h2 : sig.isEmpty = false := by
      cases sig with
      | nil =>
        rw [hexDigest_length] at hlen
        simp at hlen
      | cons a t => rfl
    simp only [verify_webhook_signature, h1, h2, Bool.false_eq_true,
      if_false]
    rw [if_neg (by omega)]
    simp [compare_digest, hascii]
  · intro payload sig
    rfl
  · intro payload sig
    rfl
  · intro sec payload
    by_cases h1 : sec.isEmpty <;> simp [verify_webhook_signature, h1]
  · intro sec payload sig hlen
    by_cases h1 : sec.isEmpty
    · simp [verify_webhook_signature, h1]
    · by_cases h2 : sig.isEmpty
      · simp [verify_webhook_signature, h1, h2]
      · simp [verify_webhook_signature, h1, h2, hlen]

/-- Witness for C2 at a concrete secret, body, valid signature and bad
ASCII signature. -/
theorem c2_signature_verifier_contract_witness :
    verify_webhook_signature (some [115, 101, 99]) [98, 111, 100, 121]
      (hexCodes (hmacSha256 [115, 101, 99] [98, 111, 100, 121]))
      = Except.ok true
  ∧ verify_webhook_signature (some [115, 101, 99]) [98, 111, 100, 121]
      [120] = Except.ok false :=
  ⟨c2_signature_verifier_contract.1 _ _ (by decide),
   c2_signature_verifier_contract.2.2.2.2.2.2 _ _ _
     (by simp [hexDigest_length])⟩

/-! ## C1: unrecognized events -/

/-- C1 counterexample: an authenticated event of unknown type is
acknowledged with 200, but the dispatcher appends NO row to the
Webhook Event Log (the source only prints a diagnostic), refuting
that exactly one `unrecognized` row is appended. -/
theorem c1_unknown_event_appends_no_log_row :
    dispatchEvent (Json.obj [("event", Json.str "totally.unknown.kind"),
      ("data", Json.obj [])]) dbEmpty = (dbEmpty, 200) ∧
    (dispatchEvent (Json.obj [("event", Json.str "totally.unknown.kind"),
      ("data", Json.obj [])]) dbEmpty).1.events.length = 0 :=
  ⟨rfl, rfl⟩

/-- C1 (amended): for every authenticated event whose body is a JSON
object and whose declared type is not one of the four known kinds, the
dispatcher performs zero store mutations and appends zero rows to the
Webhook Event Log, and the endpoint returns 200. -/
theorem c1_unrecognized_event_acknowledged :
    ∀ (fs : List (String × Json)) (st : DB),
      (∀ s, jlookup fs "event" = Json.str s →
        s ≠ "mono.events.account_connected" ∧
        s ≠ "mono.events.account_updated" ∧
        s ≠ "mono.events.account_unlinked" ∧
        s ≠ "mono.accounts.jobs.update") →
      dispatchEvent (Json.obj fs) st = (st, 200) := by
  intro fs st h
  have hev : pyGet (Json.obj fs) "event" = .ok (jlookup fs "event") := rfl
  have hd : pyGetD (Json.obj fs) "data" (Json.obj []) =
      .ok ((fs.lookup "data").getD (Json.obj [])) := rfl
  simp only [dispatchEvent, hev, hd]
  cases hjl : jlookup fs "event" with
  | str s =>
    obtain ⟨h1, h2, h3, h4⟩ := h s hjl
    simp [h1, h2, h3, h4]
  | null => rfl
  | bool b => rfl
  | num n => rfl
  | arr xs => rfl
  | obj gs => rfl

/-- Witness for C1 at the spec's concrete unknown event type. -/
theorem c1_unrecognized_event_acknowledged_witness :
    dispatchEvent (Json.obj [("event", Json.str "totally.unknown.kind"),
      ("data", Json.obj [("x", Json.num 1)])]) dbEmpty = (dbEmpty, 200) :=
  c1_unrecognized_event_acknowledged _ _ (by
    intro s hs
    have hs' : Json.str "totally.unknown.kind" = Json.str s := hs
    injection hs' with h
    subst h
    exact ⟨by decide, by decide, by decide, by decide⟩)

/-! ## C9: the health endpoint -/

/-- C9 counterexample: the webhook server's `GET /health` body carries
only `status` and `service`; looking up `webhook_configured` finds no
binding, refuting that the body contains that boolean. -/
theorem c9_health_has_no_webhook_configured_field :
    health_check = (200, Json.obj [("status", Json.str "healthy"),
      ("service", Json.str "mono-banking-webhooks")]) ∧
    (match health_check.2 with
     | Json.obj fs => fs.lookup "webhook_configured"
     | _ => some Json.null) = none := by
  constructor
  · rfl
  · rfl

/-- C9 (amended): every `GET /health` request to the webhook server
returns 200 with `status: healthy` and the service name; the body has
no `webhook_configured` field. -/
theorem c9_health_contract :
    health_check.1 = 200 ∧
    pyGet health_check.2 "status" = Except.ok (Json.str "healthy") ∧
    pyGet health_check.2 "service" =
      Except.ok (Json.str "mono-banking-webhooks") ∧
    pyGet health_check.2 "webhook_configured" = Except.ok Json.null :=
  ⟨rfl, rfl, rfl, rfl⟩

/-! ## C3: missing or non-string account ids -/

/-- `store_account` never touches the Webhook Event Log. -/
theorem store_account_events (d : List (String × Json)) (st : DB) :
    (store_account d st).1.events = st.events := by
  unfold store_account
  split
  · split
    · rfl
    · rfl
  · split
    · rfl
    · rfl

/-- `remove_account` never touches the Webhook Event Log. -/
theorem remove_account_events (a : Json) (st : DB) :
    (remove_account a st).1.events = st.events := by
  unfold remove_account
  split <;> rfl

/-- C4 failing input: a correctly signed `account_connected` event for
a fresh account `acc_1` / customer `cust_1`.  The handler's dict lacks
the NOT NULL columns (`account_number`, ...), so the insert fails, the
upsert reports `false`, and afterwards NO account row exists and
`get_account "acc_1"` is absent — the event is logged and the endpoint
still answers 200, masking the failure. -/
theorem c4_account_connected_insert_always_fails :
    (dispatchEvent (Json.obj [("event", Json.str "mono.events.account_connected"),
      ("data", Json.obj [("id", Json.str "acc_1"), ("customer", Json.str "cust_1")])])
      dbEmpty).2 = 200 ∧
    (dispatchEvent (Json.obj [("event", Json.str "mono.events.account_connected"),
      ("data", Json.obj [("id", Json.str "acc_1"), ("customer", Json.str "cust_1")])])
      dbEmpty).1.accounts = [] ∧
    get_account (dispatchEvent (Json.obj [("event", Json.str "mono.events.account_connected"),
      ("data", Json.obj [("id", Json.str "acc_1"), ("customer", Json.str "cust_1")])])
      dbEmpty).1 (Json.str "acc_1") = none ∧
    store_account [("id", Json.str "acc_1"), ("customer_id", Json.str "cust_1"),
      ("status", Json.str "connected")] dbEmpty = (dbEmpty, false) ∧
    (dispatchEvent (Json.obj [("event", Json.str "mono.events.account_connected"),
      ("data", Json.obj [("id", Json.str "acc_1"), ("customer", Json.str "cust_1")])])
      dbEmpty).1.events =
      [{ event_type := "account_connected", account_id := some "acc_1",
         data := Json.obj [("id", Json.str "acc_1"),
                           ("customer", Json.str "cust_1")],
         processed := false }] :=
  ⟨rfl, rfl, rfl, rfl, rfl⟩

/-! ## C5: cascade delete on unlink -/

/-- After removing every row with id `s`, a lookup for `s` is empty. -/
theorem find_filtered_id_none (l : List AccountRow) (s : String) :
    (l.filter (fun r => ¬ r.id = s)).find? (fun r => r.id = s) = none := by
  induction l with
  | nil => rfl
  | cons x t ih => by_cases h : x.id = s <;> simp [h, ih]

/-- After removing every transaction of account `s`, filtering for `s`
yields nothing. -/
theorem filter_filtered_account_nil (l : List TxnRow) (s : String) :
    (l.filter (fun r => ¬ r.account_id = s)).filter
      (fun r => r.account_id = s) = [] := by
  induction l with
  | nil => rfl
  | cons x t ih => by_cases h : x.account_id = s <;> simp [h, ih]

/-- `get_account` misses on a store whose accounts were filtered by
that id. -/
theorem get_account_filtered (st' : DB) (A : String) (l : List AccountRow)
    (e : st'.accounts = l.filter (fun r => ¬ r.id = A)) :
    get_account st' (Json.str A) = none := by
  simp [get_account, findAccount, reqText, e, find_filtered_id_none]

/-- `get_recent_transactions` is empty on a store whose transactions
were filtered by that account id. -/
theorem get_recent_filtered (st' : DB) (A : String) (n : Nat) (l : List TxnRow)
    (e : st'.txns = l.filter (fun r => ¬ r.account_id = A)) :
    get_recent_transactions A n st' = [] := by
  simp [get_recent_transactions, e, filter_filtered_account_nil, sortByDateDesc]

/-- Reduction of the dispatcher on a well-formed unlink event: the
account and its transactions are removed, the event is logged exactly
when the id is a non-empty string, and the response is 200. -/
theorem dispatch_unlinked_eq (st : DB) (A : String) :
    dispatchEvent (Json.obj [("event", Json.str "mono.events.account_unlinked"),
      ("data", Json.obj [("account", Json.obj [("id", Json.str A)])])]) st =
      ((if isNonemptyStr (Json.str A) then
          (store_webhook_event "account_unlinked" (Json.str A)
            (Json.obj [("account", Json.obj [("id", Json.str A)])])
            (remove_account (Json.str A) st).1).1
        else (remove_account (Json.str A) st).1), 200) := by
  by_cases hA : A = ""
  · subst hA
    rfl
  · have hb : isNonemptyStr (Json.str A) = true := by simp [isNonemptyStr, hA]
    simp only [hb, if_true]
    show toResponse st (handle_account_unlinked
      (Json.obj [("account", Json.obj [("id", Json.str A)])]) st) = _
    simp only [handle_account_unlinked, pyGet, pyGetD]
    simp [hb, toResponse]

/-- C5: after an authenticated `account_unlinked` event for account
`A`, `get_account A` is absent and `get_recent_transactions A n` is
empty for every `n` (with a 200 response); and deleting an id is never
an error: `remove_account` reports success whether or not the id is
present. -/
theorem c5_unlink_cascade_delete :
    (∀ (st : DB) (A : String) (n : Nat),
      (dispatchEvent (Json.obj [("event", Json.str "mono.events.account_unlinked"),
        ("data", Json.obj [("account", Json.obj [("id", Json.str A)])])]) st).2
        = 200 ∧
      get_account (dispatchEvent (Json.obj
        [("event", Json.str "mono.events.account_unlinked"),
         ("data", Json.obj [("account", Json.obj [("id", Json.str A)])])])
        st).1 (Json.str A) = none ∧
      get_recent_transactions A n (dispatchEvent (Json.obj
        [("event", Json.str "mono.events.account_unlinked"),
         ("data", Json.obj [("account", Json.obj [("id", Json.str A)])])])
        st).1 = [])
  ∧ (∀ (st : DB) (A : String), (remove_account (Json.str A) st).2 = true) := by
  constructor
  · intro st A n
    rw [dispatch_unlinked_eq]
    cases hb : isNonemptyStr (Json.str A) with
    | false =>
      simp only [hb, Bool.false_eq_true, if_false]
      exact ⟨trivial, get_account_filtered _ A st.accounts rfl,
             get_recent_filtered _ A n st.txns rfl⟩
    | true =>
      simp only [hb, if_true]
      exact ⟨trivial, get_account_filtered _ A st.accounts rfl,
             get_recent_filtered _ A n st.txns rfl⟩
  · intro st A
    rfl

/-! ## C6: idempotent transaction upsert -/

/-- A committed transaction row carries the `_id` of its source dict. -/
theorem txnFromData_id (aid : String) (t : List (String × Json)) (r : TxnRow)
    (h : txnFromData aid t = some r) :
    reqText (jlookup t "_id") = some r.id := by
  unfold txnFromData at h
  split at h
  · rename_i id amount ty de re da ba ca hid hamt hty hde hre hda hba hca
    injection h with e
    rw [← e]
    exact hid
  · exact absurd h (by simp)

/-- Replacing rows keyed on an id not present leaves the list intact. -/
theorem map_id_nonmatching (l : List TxnRow) (s : String) (row' : TxnRow)
    (h : ∀ r ∈ l, r.id ≠ s) :
    l.map (fun r => if r.id = s then row' else r) = l := by
  induction l with
  | nil => rfl
  | cons x t ih =>
    have hx : ¬ (x.id = s) := h x (List.mem_cons_self x t)
    simp [hx, ih (fun r hr => h r (List.mem_cons_of_mem x hr))]

/-- Filtering by an id not present yields nothing. -/
theorem filter_id_nonmatching (l : List TxnRow) (s : String)
    (h : ∀ r ∈ l, r.id ≠ s) : l.filter (fun r => r.id = s) = [] := by
  induction l with
  | nil => rfl
  | cons x t ih =>
    have hx : ¬ (x.id = s) := h x (List.mem_cons_self x t)
    simp [hx, ih (fun r hr => h r (List.mem_cons_of_mem x hr))]

/-- C6: storing a transaction whose `_id` is already present overwrites
that row's fields instead of duplicating it: two bulk stores of the
same id leave exactly one matching row, holding the second store's
values, and grow the table by one row only. -/
theorem c6_transaction_upsert_overwrites :
    ∀ (st : DB) (aid s : String) (t1 t2 : List (String × Json))
      (r1 r2 : TxnRow),
      txnFromData aid t1 = some r1 →
      txnFromData aid t2 = some r2 →
      reqText (jlookup t1 "_id") = some s →
      reqText (jlookup t2 "_id") = some s →
      (∀ r ∈ st.txns, r.id ≠ s) →
      (store_transactions aid [t1] st).2 = true ∧
      (store_transactions aid [t2] (store_transactions aid [t1] st).1).2
        = true ∧
      ((store_transactions aid [t2]
         (store_transactions aid [t1] st).1).1.txns.filter
        (fun r => r.id = s)) = [r2] ∧
      (store_transactions aid [t2]
        (store_transactions aid [t1] st).1).1.txns.length
        = st.txns.length + 1 := by
  intro st aid s t1 t2 r1 r2 h1 h2 hid1 hid2 hnew
  have hr1 : r1.id = s := by
    have hx := txnFromData_id aid t1 r1 h1
    rw [hid1] at hx
    injection hx with e
    exact e.symm
  have hr2 : r2.id = s := by
    have hx := txnFromData_id aid t2 r2 h2
    rw [hid2] at hx
    injection hx with e
    exact e.symm
  have hany1 : st.txns.any (fun r => r.id = s) = false := by
    rw [List.any_eq_false]
    intro r hr
    simpa using hnew r hr
  have hfirst : store_transactions aid [t1] st =
      ({ st with txns := st.txns ++ [r1] }, true) := by
    simp [store_transactions, storeTxnsGo, hid1, h1, hany1]
  have hany2 : (st.txns ++ [r1]).any (fun r => r.id = s) = true := by
    simp [List.any_append, hr1]
  have hsecond : store_transactions aid [t2]
      { st with txns := st.txns ++ [r1] } =
      ({ st with txns := List.map (fun r => if r.id = s then r2 else r) (st.txns ++ [r1]) }, true) := by
    simp [store_transactions, storeTxnsGo, hid2, h2, hany2]
  simp only [hfirst]
  simp only [hsecond]
  refine ⟨trivial, trivial, ?_, ?_⟩
  · rw [List.map_append]
    rw [map_id_nonmatching st.txns s r2 hnew]
    have : [r1].map (fun r => if r.id = s then r2 else r) = [r2] := by
      simp [hr1]
    rw [this, List.filter_append]
    rw [filter_id_nonmatching st.txns s hnew]
    simp [hr2]
  · simp

/-- Witness for C6: the same transaction id stored twice with amounts
100 then 250 leaves exactly one row, with amount 250. -/
theorem c6_transaction_upsert_overwrites_witness :
    ((store_transactions "acc"
        [[("_id", Json.str "t1"), ("amount", Json.num 250),
          ("type", Json.str "debit"), ("date", Json.str "2024-01-01"),
          ("balance", Json.num 5)]]
        (store_transactions "acc"
          [[("_id", Json.str "t1"), ("amount", Json.num 100),
            ("type", Json.str "debit"), ("date", Json.str "2024-01-01"),
            ("balance", Json.num 5)]] dbEmpty).1).1.txns.filter
      (fun r => r.id = "t1")) =
    [{ id := "t1", account_id := "acc", amount := 250, type := "debit",
       description := none, reference := none, date := "2024-01-01",
       balance := 5, category := none }] :=
  (c6_transaction_upsert_overwrites dbEmpty "acc" "t1"
    [("_id", Json.str "t1"), ("amount", Json.num 100),
     ("type", Json.str "debit"), ("date", Json.str "2024-01-01"),
     ("balance", Json.num 5)]
    [("_id", Json.str "t1"), ("amount", Json.num 250),
     ("type", Json.str "debit"), ("date", Json.str "2024-01-01"),
     ("balance", Json.num 5)]
    { id := "t1", account_id := "acc", amount := 100, type := "debit",
      description := none, reference := none, date := "2024-01-01",
      balance := 5, category := none }
    { id := "t1", account_id := "acc", amount := 250, type := "debit",
      description := none, reference := none, date := "2024-01-01",
      balance := 5, category := none }
    rfl rfl rfl rfl (by simp [dbEmpty])).2.2.1

/-! ## C7: ordering of recent transactions -/

/-- Characters with equal code points are equal. -/
theorem char_eq_of_toNat_eq {a b : Char} (h : a.toNat = b.toNat) : a = b := by
  cases a with
  | mk v1 h1 =>
    cases b with
    | mk v2 h2 =>
      simp only [Char.toNat] at h
      congr 1
      exact UInt32.toNat.inj h

/-- The BINARY-collation order is irreflexive. -/
theorem charListLt_irrefl (l : List Char) : charListLt l l = false := by
  induction l with
  | nil => rfl
  | cons a t ih => simp [charListLt, ih]

/-- The BINARY-collation order is asymmetric. -/
theorem charListLt_asymm (l m : List Char) (h : charListLt l m = true) :
    charListLt m l = false := by
  induction l generalizing m with
  | nil =>
    cases m with
    | nil => simp [charListLt] at h
    | cons b bs => rfl
  | cons a as ih =>
    cases m with
    | nil => simp [charListLt] at h
    | cons b bs =>
      simp only [charListLt] at h ⊢
      by_cases h1 : a.toNat < b.toNat
      · have h2 : ¬ b.toNat < a.toNat := by omega
        simp [h1, h2]
      · by_cases h2 : b.toNat < a.toNat
        · simp [h1, h2] at h
        · simp [h1, h2] at h ⊢
          exact ih bs h

/-- The BINARY-collation order is transitive. -/
theorem charListLt_trans (l m k : List Char) (h1 : charListLt l m = true)
    (h2 : charListLt m k = true) : charListLt l k = true := by
  induction l generalizing m k with
  | nil =>
    cases k with
    | nil =>
      cases m with
      | nil => simp [charListLt] at h1
      | cons b bs => simp [charListLt] at h2
    | cons c cs => rfl
  | cons a as ih =>
    cases m with
    | nil => simp [charListLt] at h1
    | cons b bs =>
      cases k with
      | nil => simp [charListLt] at h2
      | cons c cs =>
        simp only [charListLt] at h1 h2 ⊢
        by_cases hab : a.toNat < b.toNat <;> by_cases hbc : b.toNat < c.toNat
        · simp [show a.toNat < c.toNat by omega]
        · by_cases hcb : c.toNat < b.toNat
          · simp [hbc, hcb] at h2
          · have hx : a.toNat < c.toNat := by omega
            simp [hx]
        · by_cases hba : b.toNat < a.toNat
          · simp [hab, hba] at h1
          · have hx : a.toNat < c.toNat := by omega
            simp [hx]
        · by_cases hba : b.toNat < a.toNat
          · simp [hab, hba] at h1
          · by_cases hcb : c.toNat < b.toNat
            · simp [hbc, hcb] at h2
            · have hac : ¬ a.toNat < c.toNat := by omega
              have hca : ¬ c.toNat < a.toNat := by omega
              simp [hab, hba, hbc, hcb, hac, hca] at h1 h2 ⊢
              exact ih bs cs h1 h2

/-- Two lists unrelated in either direction are equal (totality). -/
theorem charListLt_eq_of_both_false (l m : List Char)
    (h1 : charListLt l m = false) (h2 : charListLt m l = false) : l = m := by
  induction l generalizing m with
  | nil =>
    cases m with
    | nil => rfl
    | cons b bs => simp [charListLt] at h1
  | cons a as ih =>
    cases m with
    | nil => simp [charListLt] at h2
    | cons b bs =>
      simp only [charListLt] at h1 h2
      by_cases hab : a.toNat < b.toNat
      · simp [hab] at h1
      · by_cases hba : b.toNat < a.toNat
        · simp [hba] at h2
        · have he : a = b := char_eq_of_toNat_eq (by omega)
          subst he
          simp [hab, hba] at h1 h2
          rw [ih bs h1 h2]

/-- `dateLt` is irreflexive. -/
theorem dateLt_irrefl (a : String) : dateLt a a = false :=
  charListLt_irrefl a.data

/-- `dateLt` is asymmetric. -/
theorem dateLt_asymm {a b : String} (h : dateLt a b = true) :
    dateLt b a = false :=
  charListLt_asymm _ _ h

/-- `dateLt` is transitive. -/
theorem dateLt_trans {a b c : String} (h1 : dateLt a b = true)
    (h2 : dateLt b c = true) : dateLt a c = true :=
  charListLt_trans _ _ _ h1 h2

/-- Dates unrelated in either direction are equal. -/
theorem dateLt_eq_of_both_false {a b : String} (h1 : dateLt a b = false)
    (h2 : dateLt b a = false) : a = b := by
  have := charListLt_eq_of_both_false a.data b.data h1 h2
  cases a with
  | mk da =>
    cases b with
    | mk db => exact congrArg String.mk this

/-- Membership in an insertion step. -/
theorem mem_insertDesc (r x : TxnRow) (l : List TxnRow) :
    x ∈ insertDesc r l ↔ x = r ∨ x ∈ l := by
  induction l with
  | nil => simp [insertDesc]
  | cons y t ih =>
    simp only [insertDesc]
    by_cases h : dateLt y.date r.date = true
    · rw [if_pos h]
      simp [List.mem_cons]
    · rw [if_neg h]
      simp only [List.mem_cons, ih]
      tauto

/-- Insertion preserves descending date order. -/
theorem sorted_insertDesc (r : TxnRow) (l : List TxnRow)
    (h : l.Pairwise (fun a b => dateLt a.date b.date = false)) :
    (insertDesc r l).Pairwise (fun a b => dateLt a.date b.date = false) := by
  induction l with
  | nil => simp [insertDesc]
  | cons y t ih =>
    rw [List.pairwise_cons] at h
    obtain ⟨hy, ht⟩ := h
    simp only [insertDesc]
    by_cases hlt : dateLt y.date r.date = true
    · rw [if_pos hlt]
      refine List.pairwise_cons.mpr ⟨?_, List.pairwise_cons.mpr ⟨hy, ht⟩⟩
      intro z hz
      rcases List.mem_cons.mp hz with rfl | hz
      · exact dateLt_asymm hlt
      · by_contra hc
        rw [Bool.not_eq_false] at hc
        have hx := dateLt_trans hlt hc
        rw [hy z hz] at hx
        exact Bool.false_ne_true hx
    · rw [if_neg hlt]
      refine List.pairwise_cons.mpr ⟨?_, ih ht⟩
      intro z hz
      rcases (mem_insertDesc r z t).mp hz with rfl | hz
      · exact Bool.eq_false_iff.mpr hlt
      · exact hy z hz

/-- In a descending list below `d`, nothing has date `d`. -/
theorem filter_date_all_lt (l : List TxnRow) (d : String)
    (h : ∀ y ∈ l, dateLt y.date d = true) :
    l.filter (fun x => x.date = d) = [] := by
  induction l with
  | nil => rfl
  | cons y t ih =>
    have hy : ¬ (y.date = d) := by
      intro e
      have hx := h y (List.mem_cons_self y t)
      rw [e, dateLt_irrefl] at hx
      exact Bool.false_ne_true hx
    simp [hy, ih (fun z hz => h z (List.mem_cons_of_mem y hz))]

/-- Stability of one insertion step: within any fixed date `d`, the
inserted row lands after all rows already placed. -/
theorem filter_insertDesc (r : TxnRow) (l : List TxnRow) (d : String)
    (hs : l.Pairwise (fun a b => dateLt a.date b.date = false)) :
    (insertDesc r l).filter (fun x => x.date = d) =
      if r.date = d then l.filter (fun x => x.date = d) ++ [r]
      else l.filter (fun x => x.date = d) := by
  induction l with
  | nil => by_cases h : r.date = d <;> simp [insertDesc, h]
  | cons y t ih =>
    rw [List.pairwise_cons] at hs
    obtain ⟨hy, ht⟩ := hs
    simp only [insertDesc]
    by_cases hlt : dateLt y.date r.date = true
    · rw [if_pos hlt]
      by_cases hrd : r.date = d
      · have hall : ∀ z ∈ y :: t, dateLt z.date d = true := by
          intro z hz
          rcases List.mem_cons.mp hz with rfl | hz
          · exact hrd ▸ hlt
          · cases hzy : dateLt z.date y.date with
            | true => exact hrd ▸ dateLt_trans hzy hlt
            | false =>
              have he : y.date = z.date :=
                dateLt_eq_of_both_false (hy z hz) hzy
              rw [← he]
              exact hrd ▸ hlt
        have hnil : (y :: t).filter (fun x => x.date = d) = [] :=
          filter_date_all_lt _ _ hall
        rw [if_pos hrd]
        have hc : List.filter (fun x => decide (x.date = d)) (r :: y :: t) =
            r :: List.filter (fun x => decide (x.date = d)) (y :: t) := by
          simp [hrd]
        rw [hc, hnil]
        rfl
      · simp [hrd]
    · rw [if_neg hlt]
      by_cases hyd : y.date = d <;> by_cases hrd : r.date = d <;>
        simp [hyd, hrd, ih ht]

/-- Invariant of the sorting fold: sortedness, per-date stability and
membership. -/
theorem sortFold_props (l : List TxnRow) : ∀ acc : List TxnRow,
    acc.Pairwise (fun a b => dateLt a.date b.date = false) →
    ((l.foldl (fun acc r => insertDesc r acc) acc).Pairwise
      (fun a b => dateLt a.date b.date = false)) ∧
    (∀ d, (l.foldl (fun acc r => insertDesc r acc) acc).filter
        (fun x => x.date = d) =
      acc.filter (fun x => x.date = d) ++ l.filter (fun x => x.date = d)) ∧
    (∀ x, x ∈ l.foldl (fun acc r => insertDesc r acc) acc ↔
      x ∈ acc ∨ x ∈ l) := by
  induction l with
  | nil =>
    intro acc h
    refine ⟨h, fun d => by simp, fun x => by simp⟩
  | cons r t ih =>
    intro acc h
    have h1 := sorted_insertDesc r acc h
    obtain ⟨s1, s2, s3⟩ := ih (insertDesc r acc) h1
    refine ⟨s1, ?_, ?_⟩
    · intro d
      rw [List.foldl_cons, s2 d, filter_insertDesc r acc d h]
      by_cases hrd : r.date = d <;> simp [hrd]
    · intro x
      rw [List.foldl_cons, s3 x, mem_insertDesc]
      simp only [List.mem_cons]
      tauto

/-- C7: `get_recent_transactions` returns at most `limit` rows, all of
the requested account and drawn from the store, in descending date
order; the underlying `ORDER BY` is stable (rows of any fixed date keep
their storage order); and on the spec's example dates `2024-01-01`,
`2024-01-15`, `2024-01-10` with limit 2 it returns the `01-15` row then
the `01-10` row. -/
theorem c7_recent_transactions_ordering :
    (∀ (aid : String) (n : Nat) (st : DB),
      (get_recent_transactions aid n st).length ≤ n)
  ∧ (∀ (aid : String) (n : Nat) (st : DB) (r : TxnRow),
      r ∈ get_recent_transactions aid n st →
      r.account_id = aid ∧ r ∈ st.txns)
  ∧ (∀ (aid : String) (n : Nat) (st : DB),
      (get_recent_transactions aid n st).Pairwise
        (fun a b => dateLt a.date b.date = false))
  ∧ (∀ (l : List TxnRow) (d : String),
      (sortByDateDesc l).filter (fun x => x.date = d) =
        l.filter (fun x => x.date = d))
  ∧ ((get_recent_transactions "acc" 2 (store_transactions "acc"
      [[("_id", Json.str "tx1"), ("amount", Json.num 1),
        ("type", Json.str "credit"), ("date", Json.str "2024-01-01"),
        ("balance", Json.num 0)],
       [("_id", Json.str "tx2"), ("amount", Json.num 2),
        ("type", Json.str "debit"), ("date", Json.str "2024-01-15"),
        ("balance", Json.num 0)],
       [("_id", Json.str "tx3"), ("amount", Json.num 3),
        ("type", Json.str "credit"), ("date", Json.str "2024-01-10"),
        ("balance", Json.num 0)]] dbEmpty).1).map (fun r => r.id)
      = ["tx2", "tx3"]) := by
  refine ⟨?_, ?_, ?_, ?_, by decide⟩
  · intro aid n st
    exact List.length_take_le n _
  · intro aid n st r hr
    have hmem : r ∈ sortByDateDesc (st.txns.filter
        (fun x => x.account_id = aid)) :=
      List.take_subset _ _ hr
    have hprops := sortFold_props (st.txns.filter
      (fun x => x.account_id = aid)) [] List.Pairwise.nil
    have hx := (hprops.2.2 r).mp hmem
    simp only [List.not_mem_nil, false_or] at hx
    have hm := List.mem_filter.mp hx
    exact ⟨by simpa using hm.2, hm.1⟩
  · intro aid n st
    have hprops := sortFold_props (st.txns.filter
      (fun x => x.account_id = aid)) [] List.Pairwise.nil
    exact hprops.1.sublist (List.take_sublist _ _)
  · intro l d
    have hprops := sortFold_props l [] List.Pairwise.nil
    simpa [sortByDateDesc] using hprops.2.1 d

/-- Witness for C7 at the spec's example store: the `2024-01-15` row is
returned, belongs to account `acc` and is drawn from the store. -/
theorem c7_recent_transactions_ordering_witness :
    (⟨"tx2", "acc", 2, "debit", none, none, "2024-01-15", 0, none⟩ :
      TxnRow).account_id = "acc" ∧
    (⟨"tx2", "acc", 2, "debit", none, none, "2024-01-15", 0, none⟩ :
      TxnRow) ∈ (store_transactions "acc"
      [[("_id", Json.str "tx1"), ("amount", Json.num 1),
        ("type", Json.str "credit"), ("date", Json.str "2024-01-01"),
        ("balance", Json.num 0)],
       [("_id", Json.str "tx2"), ("amount", Json.num 2),
        ("type", Json.str "debit"), ("date", Json.str "2024-01-15"),
        ("balance", Json.num 0)],
       [("_id", Json.str "tx3"), ("amount", Json.num 3),
        ("type", Json.str "credit"), ("date", Json.str "2024-01-10"),
        ("balance", Json.num 0)]] dbEmpty).1.txns :=
  c7_recent_transactions_ordering.2.1 "acc" 2
    (store_transactions "acc"
      [[("_id", Json.str "tx1"), ("amount", Json.num 1),
        ("type", Json.str "credit"), ("date", Json.str "2024-01-01"),
        ("balance", Json.num 0)],
       [("_id", Json.str "tx2"), ("amount", Json.num 2),
        ("type", Json.str "debit"), ("date", Json.str "2024-01-15"),
        ("balance", Json.num 0)],
       [("_id", Json.str "tx3"), ("amount", Json.num 3),
        ("type", Json.str "credit"), ("date", Json.str "2024-01-10"),
        ("balance", Json.num 0)]] dbEmpty).1
    ⟨"tx2", "acc", 2, "debit", none, none, "2024-01-15", 0, none⟩
    (by decide)

/-! ## C8: merging account_updated events -/

/-- The `data` object of a well-formed `account_updated` event. -/
def updatedEventData (aid dstat bname bcode : String) : Json :=
  Json.obj [("account", Json.obj [("id", Json.str aid),
    ("institution", Json.obj [("name", Json.str bname),
      ("bankCode", Json.str bcode)])]),
    ("meta", Json.obj [("data_status", Json.str dstat)])]

/-- A well-formed `account_updated` event body. -/
def updatedEvent (aid dstat bname bcode : String) : Json :=
  Json.obj [("event", Json.str "mono.events.account_updated"),
            ("data", updatedEventData aid dstat bname bcode)]

/-- Reduction of `handle_account_updated` on a well-formed event. -/
theorem handle_account_updated_eq (st : DB) (aid dstat bname bcode : String) :
    handle_account_updated (updatedEventData aid dstat bname bcode) st =
      (match get_account st (Json.str aid) with
       | some row => Except.ok (store_webhook_event "account_updated"
           (Json.str aid) (updatedEventData aid dstat bname bcode)
           (store_account ([("status", Json.str dstat),
             ("bank_name", Json.str bname), ("bank_code", Json.str bcode)]
             ++ rowToData row) st).1).1
       | none => Except.ok (store_webhook_event "account_updated"
           (Json.str aid) (updatedEventData aid dstat bname bcode) st).1) :=
  rfl

/-- C8: an authenticated `account_updated` event merges the new status
and bank fields into an existing Account row; when no row with that id
exists the merge is a no-op and no row is fabricated.  Either way the
transactions are untouched, the event is appended to the Webhook Event
Log, and the endpoint returns 200. -/
theorem c8_account_updated_merge_or_noop :
    ∀ (st : DB) (aid dstat bname bcode : String),
      (dispatchEvent (updatedEvent aid dstat bname bcode) st).2 = 200 ∧
      (dispatchEvent (updatedEvent aid dstat bname bcode) st).1.txns
        = st.txns ∧
      (dispatchEvent (updatedEvent aid dstat bname bcode) st).1.events
        = st.events ++ [⟨"account_updated", some aid,
            updatedEventData aid dstat bname bcode, false⟩] ∧
      (get_account st (Json.str aid) = none →
        (dispatchEvent (updatedEvent aid dstat bname bcode) st).1.accounts
          = st.accounts) ∧
      (∀ row, get_account st (Json.str aid) = some row →
        (dispatchEvent (updatedEvent aid dstat bname bcode) st).1.accounts
          = st.accounts.map (fun r => if r.id = row.id then
              { row with status := dstat, bank_name := bname,
                         bank_code := bcode } else r)) := by
  intro st aid dstat bname bcode
  have hdisp : dispatchEvent (updatedEvent aid dstat bname bcode) st =
      toResponse st (handle_account_updated
        (updatedEventData aid dstat bname bcode) st) := rfl
  cases hga : get_account st (Json.str aid) with
  | none =>
    have hred : handle_account_updated
        (updatedEventData aid dstat bname bcode) st =
        Except.ok (store_webhook_event "account_updated" (Json.str aid)
          (updatedEventData aid dstat bname bcode) st).1 := by
      rw [handle_account_updated_eq, hga]
    rw [hdisp, hred]
    refine ⟨rfl, rfl, rfl, fun _ => rfl, ?_⟩
    intro row h
    exact absurd h (by simp)
  | some row =>
    have hrowid : row.id = aid := by
      have hx := List.find?_some hga
      simpa using hx
    have hfa : findAccount st (jlookup ([("status", Json.str dstat),
        ("bank_name", Json.str bname), ("bank_code", Json.str bcode)]
        ++ rowToData row) "id") = some row := by
      show st.accounts.find? (fun r => r.id = row.id) = some row
      rw [hrowid]
      exact hga
    obtain ⟨i, cu, an, am, bn, bc, ty2, cur, bv, stt⟩ := row
    simp only at hrowid
    have hsa : store_account ([("status", Json.str dstat),
        ("bank_name", Json.str bname), ("bank_code", Json.str bcode)]
        ++ rowToData ⟨i, cu, an, am, bn, bc, ty2, cur, bv, stt⟩) st =
        ({ st with accounts := st.accounts.map (fun r => if r.id = i then
            ⟨i, cu, an, am, bname, bcode, ty2, cur, bv, dstat⟩ else r) },
         true) := by
      simp only [store_account, hfa]
      cases bv <;> rfl
    have hred : handle_account_updated
        (updatedEventData aid dstat bname bcode) st =
        Except.ok (store_webhook_event "account_updated" (Json.str aid)
          (updatedEventData aid dstat bname bcode)
          (store_account ([("status", Json.str dstat),
            ("bank_name", Json.str bname), ("bank_code", Json.str bcode)]
            ++ rowToData ⟨i, cu, an, am, bn, bc, ty2, cur, bv, stt⟩) st).1).1
        := by
      rw [handle_account_updated_eq, hga]
    rw [hdisp, hred, hsa]
    refine ⟨rfl, rfl, rfl, ?_, ?_⟩
    · intro h
      exact absurd h (by simp)
    · intro row' h
      injection h with e
      rw [← e]
      rfl

/-- Witness for C8 on an absent account id: acknowledged, logged, and
no Account row fabricated. -/
theorem c8_account_updated_merge_or_noop_witness :
    (dispatchEvent (updatedEvent "acc_9" "AVAILABLE" "GTBank" "058")
      dbEmpty).2 = 200 ∧
    (dispatchEvent (updatedEvent "acc_9" "AVAILABLE" "GTBank" "058")
      dbEmpty).1.accounts = dbEmpty.accounts :=
  ⟨(c8_account_updated_merge_or_noop dbEmpty "acc_9" "AVAILABLE" "GTBank"
      "058").1,
   (c8_account_updated_merge_or_noop dbEmpty "acc_9" "AVAILABLE" "GTBank"
      "058").2.2.2.1 rfl⟩

/-! ## C10: the Webhook Event Log is append-only with `processed = false` -/

/-- One store evolves into another by appending only rows whose
`processed` flag is `false`. -/
def eventsMonotone (st st' : DB) : Prop :=
  ∃ tl, st'.events = st.events ++ tl ∧ ∀ r ∈ tl, r.processed = false

/-- Unchanged events are a trivial extension. -/
theorem eventsMonotone_of_eq {a b : DB} (h : b.events = a.events) :
    eventsMonotone a b :=
  ⟨[], by simp [h], by simp⟩

/-- Extension composes. -/
theorem eventsMonotone_trans {a b c : DB} (h1 : eventsMonotone a b)
    (h2 : eventsMonotone b c) : eventsMonotone a c := by
  obtain ⟨t1, e1, f1⟩ := h1
  obtain ⟨t2, e2, f2⟩ := h2
  refine ⟨t1 ++ t2, by rw [e2, e1, List.append_assoc], ?_⟩
  intro r hr
  rcases List.mem_append.mp hr with h | h
  · exact f1 r h
  · exact f2 r h

/-- `store_transactions` never touches the Webhook Event Log. -/
theorem store_transactions_events (aid : String)
    (ts : List (List (String × Json))) (st : DB) :
    (store_transactions aid ts st).1.events = st.events := by
  unfold store_transactions
  cases storeTxnsGo aid ts st.txns <;> rfl

/-- `store_webhook_event` appends at most one row, created with
`processed := false`. -/
theorem store_webhook_event_ext (t : String) (a p : Json) (st : DB) :
    eventsMonotone st (store_webhook_event t a p st).1 := by
  unfold store_webhook_event
  cases optText a with
  | none => exact eventsMonotone_of_eq rfl
  | some x => exact ⟨[⟨t, x, p, false⟩], rfl, by simp⟩

/-- A completed `account_connected` handler only appends to the log. -/
theorem handle_account_connected_ext (data : Json) (st st' : DB)
    (h : handle_account_connected data st = .ok st') :
    eventsMonotone st st' := by
  unfold handle_account_connected at h
  split at h
  · simp at h
  · split at h
    · simp at h
    · split at h
      · cases h
        exact eventsMonotone_trans
          (eventsMonotone_of_eq (store_account_events _ _))
          (store_webhook_event_ext _ _ _ _)
      · cases h
        exact eventsMonotone_of_eq (store_account_events _ _)

/-- A completed `account_updated` handler only appends to the log. -/
theorem handle_account_updated_ext (data : Json) (st st' : DB)
    (h : handle_account_updated data st = .ok st') :
    eventsMonotone st st' := by
  unfold handle_account_updated at h
  split at h
  · simp at h
  · split at h
    · simp at h
    · split at h
      · simp at h
      · split at h
        · simp at h
        · split at h
          · split at h
            · simp at h
            · split at h
              · simp at h
              · split at h
                · simp at h
                · cases h
                  exact eventsMonotone_trans
                    (eventsMonotone_of_eq (store_account_events _ _))
                    (store_webhook_event_ext _ _ _ _)
          · cases h
            exact store_webhook_event_ext _ _ _ _

/-- A completed `account_unlinked` handler only appends to the log. -/
theorem handle_account_unlinked_ext (data : Json) (st st' : DB)
    (h : handle_account_unlinked data st = .ok st') :
    eventsMonotone st st' := by
  unfold handle_account_unlinked at h
  split at h
  · simp at h
  · split at h
    · simp at h
    · split at h
      · cases h
        exact eventsMonotone_trans
          (eventsMonotone_of_eq (remove_account_events _ _))
          (store_webhook_event_ext _ _ _ _)
      · cases h
        exact eventsMonotone_of_eq (remove_account_events _ _)

/-- A completed `job_update` handler only appends to the log. -/
theorem handle_job_update_ext (data : Json) (st st' : DB)
    (h : handle_job_update data st = .ok st') :
    eventsMonotone st st' := by
  unfold handle_job_update at h
  split at h
  · simp at h
  · split at h
    · simp at h
    · split at h
      · cases h
        exact store_webhook_event_ext _ _ _ _
      · cases h
        exact eventsMonotone_of_eq rfl

/-- The dispatcher only appends `processed = false` rows to the log. -/
theorem dispatchEvent_ext (ev : Json) (st : DB) :
    eventsMonotone st (dispatchEvent ev st).1 := by
  unfold dispatchEvent
  split
  · exact eventsMonotone_of_eq rfl
  · split
    · exact eventsMonotone_of_eq rfl
    · split
      · split
        · unfold toResponse
          split
          · rename_i st2 hh
            exact handle_account_connected_ext _ st st2 hh
          · exact eventsMonotone_of_eq rfl
        · split
          · unfold toResponse
            split
            · rename_i st2 hh
              exact handle_account_updated_ext _ st st2 hh
            · exact eventsMonotone_of_eq rfl
          · split
            · unfold toResponse
              split
              · rename_i st2 hh
                exact handle_account_unlinked_ext _ st st2 hh
              · exact eventsMonotone_of_eq rfl
            · split
              · unfold toResponse
                split
                · rename_i st2 hh
                  exact handle_job_update_ext _ st st2 hh
                · exact eventsMonotone_of_eq rfl
              · exact eventsMonotone_of_eq rfl
      · exact eventsMonotone_of_eq rfl

/-- Stores reachable from an empty database through the core's
operations (the dispatcher and the four store primitives). -/
inductive Reachable : DB → Prop where
  | init : Reachable dbEmpty
  | storeAcc (d : List (String × Json)) {st : DB} :
      Reachable st → Reachable (store_account d st).1
  | storeTx (aid : String) (ts : List (List (String × Json))) {st : DB} :
      Reachable st → Reachable (store_transactions aid ts st).1
  | storeEv (t : String) (a p : Json) {st : DB} :
      Reachable st → Reachable (store_webhook_event t a p st).1
  | removeAcc (a : Json) {st : DB} :
      Reachable st → Reachable (remove_account a st).1
  | dispatch (ev : Json) {st : DB} :
      Reachable st → Reachable (dispatchEvent ev st).1

/-- C10: every row the core appends to the Webhook Event Log is created
with `processed = false`; no core operation rewrites an existing log
row (the stores only extend the log); hence `processed` is `false` for
every log row in every reachable store. -/
theorem c10_event_log_append_only_unprocessed :
    (∀ (t : String) (a p : Json) (st : DB),
      eventsMonotone st (store_webhook_event t a p st).1)
  ∧ (∀ (d : List (String × Json)) (st : DB),
      (store_account d st).1.events = st.events)
  ∧ (∀ (aid : String) (ts : List (List (String × Json))) (st : DB),
      (store_transactions aid ts st).1.events = st.events)
  ∧ (∀ (a : Json) (st : DB), (remove_account a st).1.events = st.events)
  ∧ (∀ (ev : Json) (st : DB), eventsMonotone st (dispatchEvent ev st).1)
  ∧ (∀ st, Reachable st → ∀ r ∈ st.events, r.processed = false) := by
  refine ⟨store_webhook_event_ext, store_account_events,
    store_transactions_events, remove_account_events, dispatchEvent_ext, ?_⟩
  intro st hst
  induction hst with
  | init => intro r hr; simp [dbEmpty] at hr
  | storeAcc d hst ih =>
    intro r hr
    rw [store_account_events] at hr
    exact ih r hr
  | storeTx aid ts hst ih =>
    intro r hr
    rw [store_transactions_events] at hr
    exact ih r hr
  | storeEv t a p hst ih =>
    intro r hr
    obtain ⟨tl, he, hf⟩ := store_webhook_event_ext t a p _
    rw [he] at hr
    rcases List.mem_append.mp hr with hc | hc
    · exact ih r hc
    · exact hf r hc
  | removeAcc a hst ih =>
    intro r hr
    rw [remove_account_events] at hr
    exact ih r hr
  | dispatch ev hst ih =>
    intro r hr
    obtain ⟨tl, he, hf⟩ := dispatchEvent_ext ev _
    rw [he] at hr
    rcases List.mem_append.mp hr with hc | hc
    · exact ih r hc
    · exact hf r hc

/-- Witness for C10 on the store reached by one dispatched event. -/
theorem c10_event_log_append_only_unprocessed_witness :
    ({ event_type := "account_connected", account_id := some "acc_1",
       data := Json.obj [("id", Json.str "acc_1"),
         ("customer", Json.str "cust_1")], processed := false } :
      EventRow).processed = false :=
  c10_event_log_append_only_unprocessed.2.2.2.2.2
    (dispatchEvent (Json.obj [("event",
      Json.str "mono.events.account_connected"),
      ("data", Json.obj [("id", Json.str "acc_1"),
        ("customer", Json.str "cust_1")])]) dbEmpty).1
    (Reachable.dispatch _ Reachable.init) _
    (by exact List.mem_singleton.mpr rfl)
